import Mathlib

/-!
Shallow embedding of the MyStudyPlanner core — the client-side relational
state store, persistence codec, retention sweeper and duration parser of
`src/components/App.tsx`, `src/components/studyplanner.tsx` and
`src/components/models.ts` — together with theorems settling the frozen
claims about it.

Modelling conventions:
* JavaScript `Date` values are modelled by their millisecond timestamp
  (`Int`, the value of `Date.getTime()` / `Date.now()`).
* Optional fields (`completed?`, `completedAt?`, `title?`, ...) are `Option`s.
* The regex scans of the duration parser are embedded as explicit
  left-to-right scanners over `List Char`, mirroring the leftmost-match
  semantics of `String.prototype.match`.
* Decimal quantities matched by the number group of the unit regexes are
  modelled exactly, as a mantissa together with a count of fraction digits
  (the value is `mantissa / 10 ^ fracDigits`); every quantity appearing in
  the claims is exactly representable as a double, so no float rounding is
  observable there. JS `Math.round x` is `⌊x + 1/2⌋` (half toward positive
  infinity); on the exact decimal pairs this is `roundUnits`, and
  `roundUnits_eq_jsRound` connects the two.
-/

namespace StudyPlanner

/-! ## Duration parser (`src/components/studyplanner.tsx`, lines 7–39) -/

/-- Numeric value of an ASCII digit character. -/
def digitVal (c : Char) : Nat := c.toNat - 48

/-- Value of a string of decimal digits, most significant first. -/
def digitsToNat (ds : List Char) : Nat := ds.foldl (fun a c => 10 * a + digitVal c) 0

/-- Greedy split of a maximal leading run of ASCII digits (the regex `\d+`). -/
def takeDigits : List Char → List Char × List Char
  | [] => ([], [])
  | c :: cs =>
    if c.isDigit then
      let p := takeDigits cs
      (c :: p.1, p.2)
    else ([], c :: cs)

/-- Greedy skip of whitespace (the regex `\s*`). -/
def skipSpaces : List Char → List Char
  | [] => []
  | c :: cs => if c.isWhitespace then skipSpaces cs else c :: cs

/-- JS regex word character (`\w` = ASCII letter, digit or underscore). -/
def isWordChar (c : Char) : Bool := c.isAlpha || c.isDigit || c == '_'

/-- Word boundary at the given rest of the input (the regex `\b` after a
word character: holds at end of input or before a non-word character). -/
def boundaryOk : List Char → Bool
  | [] => true
  | c :: _ => !isWordChar c

/-- Match a literal token at the head of the input, returning the rest. -/
def matchToken : List Char → List Char → Option (List Char)
  | [], l => some l
  | _ :: _, [] => none
  | t :: ts, c :: cs => if c = t then matchToken ts cs else none

/-- Try a list of literal alternatives, each followed by a word boundary
(the regex `(h|hr|hrs|hour|hours)\b` and its minute analogue). -/
def matchAlts (alts : List (List Char)) (l : List Char) : Bool :=
  alts.any fun tok =>
    match matchToken tok l with
    | some rest => boundaryOk rest
    | none => false

/-- Hour-unit alternatives of the hour regex, in source order. -/
def hourAlts : List (List Char) :=
  [['h'], ['h', 'r'], ['h', 'r', 's'], ['h', 'o', 'u', 'r'], ['h', 'o', 'u', 'r', 's']]

/-- Minute-unit alternatives of the minute regex, in source order. -/
def minAlts : List (List Char) :=
  [['m'], ['m', 'i', 'n'], ['m', 'i', 'n', 's'],
   ['m', 'i', 'n', 'u', 't', 'e'], ['m', 'i', 'n', 'u', 't', 'e', 's']]

/-- An exact decimal quantity: `num / 10 ^ frac`. -/
structure DecQty where
  num : Nat
  frac : Nat
deriving DecidableEq, Repr

/-- Rational value of an exact decimal quantity. -/
def DecQty.val (q : DecQty) : ℚ := (q.num : ℚ) / (10 : ℚ) ^ q.frac

/-- Scan the number group of the unit regexes at the current position:
one or more digits with an optional fraction part (a dot followed by one or
more digits). Returns the exact decimal quantity and the rest of the
input. -/
def scanQty (l : List Char) : Option (DecQty × List Char) :=
  let p := takeDigits l
  if p.1 = [] then none
  else
    match p.2 with
    | [] => some (⟨digitsToNat p.1, 0⟩, [])
    | c :: rest2 =>
      if c = '.' then
        let q := takeDigits rest2
        if q.1 = [] then some (⟨digitsToNat p.1, 0⟩, c :: rest2)
        else
          some (⟨digitsToNat p.1 * 10 ^ q.1.length + digitsToNat q.1, q.1.length⟩, q.2)
      else some (⟨digitsToNat p.1, 0⟩, c :: rest2)

/-- Attempt a unit match (number, optional spaces, unit alternative with a
word boundary) starting exactly at the current position. -/
def tryUnitAt (alts : List (List Char)) (l : List Char) : Option DecQty :=
  match scanQty l with
  | none => none
  | some (q, rest) => if matchAlts alts (skipSpaces rest) then some q else none

/-- Leftmost unit match: try each start position from the left, as the JS
regex engine does for an unanchored pattern. -/
def scanUnit (alts : List (List Char)) : List Char → Option DecQty
  | [] => none
  | c :: cs =>
    match tryUnitAt alts (c :: cs) with
    | some q => some q
    | none => scanUnit alts cs

/-- The anchored colon pattern of the parser: one or two digits, a colon,
exactly two digits, end of input. Such an input has length 4 or 5. -/
def colonMatch (l : List Char) : Option (Nat × Nat) :=
  match l with
  | [a, b, c, d] =>
    if a.isDigit && b == ':' && c.isDigit && d.isDigit then
      some (digitVal a, 10 * digitVal c + digitVal d)
    else none
  | [a, b, c, d, e] =>
    if a.isDigit && b.isDigit && c == ':' && d.isDigit && e.isDigit then
      some (10 * digitVal a + digitVal b, 10 * digitVal d + digitVal e)
    else none
  | _ => none

/-- The anchored bare-integer pattern: the whole input is one or more digits. -/
def justNumber (l : List Char) : Bool := !l.isEmpty && l.all Char.isDigit

/-- Leftmost run of digits anywhere in the input (the fallback pattern). -/
def firstNum : List Char → Option Nat
  | [] => none
  | c :: cs => if c.isDigit then some (digitsToNat (takeDigits (c :: cs)).1) else firstNum cs

/-- JS `String.prototype.trim` on a character list: drop leading and
trailing whitespace. -/
def trimList (l : List Char) : List Char :=
  ((l.dropWhile Char.isWhitespace).reverse.dropWhile Char.isWhitespace).reverse

/-- JS `Math.round`: round half toward positive infinity. -/
def jsRound (q : ℚ) : Int := ⌊q + 1 / 2⌋

/-- JS `Math.round (hours * 60 + minutes)` computed exactly on the decimal
quantities: the sum is put over the common denominator
`10 ^ (hours.frac + minutes.frac)` and rounded half up with natural-number
division. `roundUnits_eq_jsRound` shows this agrees with `⌊x + 1/2⌋`. -/
def roundUnits (hours minutes : DecQty) : Nat :=
  let num := hours.num * 60 * 10 ^ minutes.frac + minutes.num * 10 ^ hours.frac
  let den := 10 ^ (hours.frac + minutes.frac)
  (2 * num + den) / (2 * den)

/-- `parseDurationToMinutes` (`src/components/studyplanner.tsx`, lines 7–30):
empty input is 0; otherwise the input is lowercased and trimmed, then the
anchored colon pattern, the hour/minute unit patterns, the anchored
bare-integer pattern and the first-integer fallback are tried in that
order, and 0 is returned when nothing matches. -/
def parseDurationToMinutes (duration : String) : Nat :=
  if duration = "" then 0
  else
    let s := trimList (duration.data.map Char.toLower)
    match colonMatch s with
    | some hm => hm.1 * 60 + hm.2
    | none =>
      let hM := scanUnit hourAlts s
      let mM := scanUnit minAlts s
      if hM.isSome || mM.isSome then
        roundUnits (hM.getD ⟨0, 0⟩) (mM.getD ⟨0, 0⟩)
      else if justNumber s then digitsToNat s
      else
        match firstNum s with
        | some n => n
        | none => 0

/-- Decimal digit character, as produced by JS number-to-string conversion. -/
def digitChar (d : Nat) : Char := Char.ofNat (48 + d)

/-- Decimal rendering of a natural number, as JS template literals render a
non-negative integer. -/
def natDec (n : Nat) : List Char :=
  if n < 10 then [digitChar n]
  else natDec (n / 10) ++ [digitChar (n % 10)]
termination_by n
decreasing_by exact Nat.div_lt_self (by omega) (by omega)

/-- `formatMinutes` (`src/components/studyplanner.tsx`, lines 32–39): clamp
the rounded total at 0, then render minutes only, whole hours only, or the
mixed form. -/
def formatMinutes (total : ℚ) : String :=
  let mins := (max 0 (jsRound total)).toNat
  let h := mins / 60
  let m := mins % 60
  if h ≤ 0 then String.mk (natDec m ++ ['m'])
  else if m = 0 then String.mk (natDec h ++ ['h'])
  else String.mk (natDec h ++ 'h' :: ' ' :: (natDec m ++ ['m']))

/-! ## Data model (`src/components/models.ts`) -/

/-- Subject record. -/
structure Subject where
  id : String
  name : String
  color : String
deriving DecidableEq, Repr

/-- The `type` union of a Task. -/
inductive TaskType where
  | task
  | assignment
  | exam
  | homework
deriving DecidableEq, Repr

/-- Task record; `dueDate` and `completedAt` are millisecond timestamps. -/
structure Task where
  id : String
  title : String
  subjectId : String
  dueDate : Int
  type : TaskType
  completed : Option Bool := none
  completedAt : Option Int := none
deriving DecidableEq, Repr

/-- StudySession record; `title` is optional in the stored model (the UI
falls back to a placeholder). -/
structure StudySession where
  id : String
  subjectId : String
  title : Option String := none
  date : Int
  startTime : String
  duration : String
  linkedTaskId : Option String := none
  completed : Option Bool := none
  completedAt : Option Int := none
deriving DecidableEq, Repr

/-- The three collections owned by the store (the React state of `App`). -/
structure AppState where
  subjects : List Subject
  tasks : List Task
  studySessions : List StudySession
deriving DecidableEq, Repr

/-- JS truthiness of an optional boolean (`undefined` is falsy). -/
def jsTruthy : Option Bool → Bool
  | some b => b
  | none => false

/-! ## Entity store handlers (`src/components/App.tsx`, lines 180–226).
Handlers that call `Date.now()` take the current time `now` explicitly;
fresh ids (`Date.now().toString()`) become `toString now`. -/

/-- `handleAddSubject` (line 180): append a Subject with a fresh id. -/
def handleAddSubject (now : Int) (name color : String) (st : AppState) : AppState :=
  { st with subjects := st.subjects ++ [{ id := toString now, name := name, color := color }] }

/-- `handleUpdateSubject` (line 183): rewrite name and color of the match. -/
def handleUpdateSubject (id name color : String) (st : AppState) : AppState :=
  { st with
    subjects := st.subjects.map fun s =>
      if s.id == id then { s with name := name, color := color } else s }

/-- `handleDeleteSubject` (lines 186–190): filter the Subject out and filter
Tasks and StudySessions with that `subjectId` out of their collections. -/
def handleDeleteSubject (id : String) (st : AppState) : AppState :=
  { subjects := st.subjects.filter fun s => s.id != id
    tasks := st.tasks.filter fun t => t.subjectId != id
    studySessions := st.studySessions.filter fun s => s.subjectId != id }

/-- `handleAddTask` (line 192): append the data with a fresh id (the `id`
field of the argument is ignored, matching the `Omit` of the source). -/
def handleAddTask (now : Int) (t : Task) (st : AppState) : AppState :=
  { st with tasks := st.tasks ++ [{ t with id := toString now }] }

/-- `handleUpdateTask` (line 195): replace the matching Task by the data,
keeping the id. -/
def handleUpdateTask (id : String) (t : Task) (st : AppState) : AppState :=
  { st with tasks := st.tasks.map fun x => if x.id == id then { t with id := id } else x }

/-- `handleDeleteTask` (lines 198–203): filter the Task out and clear
`linkedTaskId` on StudySessions that pointed at it. -/
def handleDeleteTask (id : String) (st : AppState) : AppState :=
  { st with
    tasks := st.tasks.filter fun t => t.id != id
    studySessions := st.studySessions.map fun s =>
      if s.linkedTaskId == some id then { s with linkedTaskId := none } else s }

/-- `toggleTaskCompleted` (lines 205–210): on the matching Task, negate the
truthiness of `completed` and set `completedAt` to the current time —
unconditionally, in both toggle directions. -/
def toggleTaskCompleted (now : Int) (id : String) (st : AppState) : AppState :=
  { st with
    tasks := st.tasks.map fun t =>
      if t.id == id then
        { t with completed := some (!jsTruthy t.completed), completedAt := some now }
      else t }

/-- `handleAddStudySession` (line 212): append the data with a fresh id and
`completed := false`. -/
def handleAddStudySession (now : Int) (s : StudySession) (st : AppState) : AppState :=
  { st with
    studySessions := st.studySessions ++ [{ s with id := toString now, completed := some false }] }

/-- `handleUpdateStudySession` (line 215): replace the matching StudySession
by the data, keeping the id. -/
def handleUpdateStudySession (id : String) (s : StudySession) (st : AppState) : AppState :=
  { st with
    studySessions := st.studySessions.map fun x => if x.id == id then { s with id := id } else x }

/-- `handleDeleteStudySession` (line 218): filter the StudySession out. -/
def handleDeleteStudySession (id : String) (st : AppState) : AppState :=
  { st with studySessions := st.studySessions.filter fun s => s.id != id }

/-- `handleToggleSessionCompleted` (lines 221–226): same shape as
`toggleTaskCompleted`. -/
def handleToggleSessionCompleted (now : Int) (id : String) (st : AppState) : AppState :=
  { st with
    studySessions := st.studySessions.map fun s =>
      if s.id == id then
        { s with completed := some (!jsTruthy s.completed), completedAt := some now }
      else s }

/-! ## Retention sweeper (`src/components/App.tsx`, lines 19 and 84–90) -/

/-- `AUTO_DELETE_COMPLETED_AFTER_MS` (line 19): 24 hours in milliseconds. -/
def AUTO_DELETE_COMPLETED_AFTER_MS : Int := 24 * 60 * 60 * 1000

/-- `pruneAutoDeletedCompletedTasks` (lines 84–90): keep a Task unless it is
completed, has a completion time, and `now - completedAt` has reached the
retention window. -/
def pruneAutoDeletedCompletedTasks (now : Int) (input : List Task) : List Task :=
  input.filter fun t =>
    match t.completed, t.completedAt with
    | some true, some ca => decide (now - ca < AUTO_DELETE_COMPLETED_AFTER_MS)
    | _, _ => true

/-! ## Persistence codec (`src/components/App.tsx`, lines 94–157).
The JSON string boundary is modelled structurally: `JSON.parse` of
`JSON.stringify` restores the record shape exactly, with `Date` fields
carried as their millisecond timestamp (a `Date` serializes to its ISO
string and `new Date` of that string restores the same millisecond value)
and absent or null fields as `none`. -/

/-- A Task as it sits in the stored blob: date fields are serialized
primitives, either present or absent. -/
structure PersistedTask where
  id : String
  title : String
  subjectId : String
  dueDate : Option Int
  type : TaskType
  completed : Option Bool := none
  completedAt : Option Int := none
deriving DecidableEq, Repr

/-- A StudySession as it sits in the stored blob. -/
structure PersistedSession where
  id : String
  subjectId : String
  title : Option String := none
  date : Option Int
  startTime : String
  duration : String
  linkedTaskId : Option String := none
  completed : Option Bool := none
  completedAt : Option Int := none
deriving DecidableEq, Repr

/-- The parsed stored document: each top-level collection may be missing
(legacy formats). -/
structure StoredBlob where
  subjects : Option (List Subject)
  tasks : Option (List PersistedTask)
  studySessions : Option (List PersistedSession)
deriving DecidableEq, Repr

/-- Serialization of one Task (the persistence `useEffect`, line 156). -/
def saveTask (t : Task) : PersistedTask :=
  { id := t.id, title := t.title, subjectId := t.subjectId, dueDate := some t.dueDate
    type := t.type, completed := t.completed, completedAt := t.completedAt }

/-- Serialization of one StudySession. -/
def saveSession (s : StudySession) : PersistedSession :=
  { id := s.id, subjectId := s.subjectId, title := s.title, date := some s.date
    startTime := s.startTime, duration := s.duration, linkedTaskId := s.linkedTaskId
    completed := s.completed, completedAt := s.completedAt }

/-- `localStorage.setItem(storageKey, JSON.stringify({subjects, tasks,
studySessions}))` (lines 153–157), up to the JSON string boundary. -/
def save (st : AppState) : StoredBlob :=
  { subjects := some st.subjects
    tasks := some (st.tasks.map saveTask)
    studySessions := some (st.studySessions.map saveSession) }

/-- Date reconstruction for one Task (lines 121–125): a present `dueDate`
is reconstructed, a missing one defaults to `new Date()`; a present
`completedAt` is reconstructed, a missing one stays `undefined`. -/
def loadTask (now : Int) (p : PersistedTask) : Task :=
  { id := p.id, title := p.title, subjectId := p.subjectId
    dueDate := p.dueDate.getD now
    type := p.type, completed := p.completed, completedAt := p.completedAt }

/-- Title normalization on load (line 132): `s?.title?.trim() || "Study
session"`. -/
def normalizeTitle (o : Option String) : String :=
  match o with
  | some s =>
    let t := String.mk (trimList s.data)
    if t = "" then "Study session" else t
  | none => "Study session"

/-- Reconstruction of one StudySession (lines 130–135). -/
def loadSession (now : Int) (p : PersistedSession) : StudySession :=
  { id := p.id, subjectId := p.subjectId
    title := some (normalizeTitle p.title)
    date := p.date.getD now
    startTime := p.startTime, duration := p.duration, linkedTaskId := p.linkedTaskId
    completed := p.completed, completedAt := p.completedAt }

/-- `defaultSubjects` (lines 26–32). -/
def defaultSubjects : List Subject :=
  [{ id := "1", name := "Mathematics", color := "#6B9BC3" },
   { id := "2", name := "Physics", color := "#9B7FA8" },
   { id := "3", name := "Chemistry", color := "#C4956E" },
   { id := "4", name := "English", color := "#8B73A0" },
   { id := "5", name := "History", color := "#B87B7B" }]

/-- Hydration of a present, well-formed blob (lines 114–136): subjects fall
back to the defaults when the field is missing, Tasks are reconstructed and
then swept once by `pruneAutoDeletedCompletedTasks`, StudySessions are
reconstructed with title normalization. -/
def loadState (now : Int) (b : StoredBlob) : AppState :=
  { subjects := b.subjects.getD defaultSubjects
    tasks := pruneAutoDeletedCompletedTasks now ((b.tasks.getD []).map (loadTask now))
    studySessions := (b.studySessions.getD []).map (loadSession now) }

/-! ## Mutation steps.
One constructor per store handler; `applyMutation` dispatches, and
`runMutations` folds a timed trace over a state. The persistence
`useEffect` (lines 153–157) re-serializes after every step and never
changes the in-memory collections, so a post-mutation state is exactly the
state produced by the handler. -/

/-- One user-initiated mutation of the store. -/
inductive Mutation where
  | addSubject (name color : String)
  | updateSubject (id name color : String)
  | deleteSubject (id : String)
  | addTask (data : Task)
  | updateTask (id : String) (data : Task)
  | deleteTask (id : String)
  | toggleTask (id : String)
  | addStudySession (data : StudySession)
  | updateStudySession (id : String) (data : StudySession)
  | deleteStudySession (id : String)
  | toggleSession (id : String)
deriving DecidableEq, Repr

/-- Dispatch a mutation at the current time `now`. -/
def applyMutation (now : Int) : Mutation → AppState → AppState
  | .addSubject name color => handleAddSubject now name color
  | .updateSubject id name color => handleUpdateSubject id name color
  | .deleteSubject id => handleDeleteSubject id
  | .addTask data => handleAddTask now data
  | .updateTask id data => handleUpdateTask id data
  | .deleteTask id => handleDeleteTask id
  | .toggleTask id => toggleTaskCompleted now id
  | .addStudySession data => handleAddStudySession now data
  | .updateStudySession id data => handleUpdateStudySession id data
  | .deleteStudySession id => handleDeleteStudySession id
  | .toggleSession id => handleToggleSessionCompleted now id

/-- Fold a timed mutation trace over a state. -/
def runMutations (steps : List (Int × Mutation)) (st : AppState) : AppState :=
  steps.foldl (fun s p => applyMutation p.1 p.2 s) st

/-! ## Concrete fixtures used by witnesses and counterexamples -/

/-- A completed Task with `completedAt` set, satisfying the pairing invariant. -/
def taskDone : Task :=
  { id := "t1", title := "Essay", subjectId := "1", dueDate := 0, type := .task
    completed := some true, completedAt := some 0 }

/-- A completed StudySession with `completedAt` set. -/
def sessionDone : StudySession :=
  { id := "s1", subjectId := "1", title := some "Review", date := 0
    startTime := "4:00 PM", duration := "60 min"
    completed := some true, completedAt := some 0 }

/-- A state satisfying the completion pairing invariant. -/
def stateDone : AppState :=
  { subjects := defaultSubjects, tasks := [taskDone], studySessions := [sessionDone] }

/-- A Task completed exactly one retention window before time 86400000. -/
def taskBoundary : Task :=
  { id := "tb", title := "Boundary", subjectId := "1", dueDate := 0, type := .task
    completed := some true, completedAt := some 0 }

/-- A Task completed 25 hours before the reference time 100 h. -/
def task25h : Task :=
  { id := "t25", title := "Old", subjectId := "1", dueDate := 0, type := .task
    completed := some true, completedAt := some (75 * 3600000) }

/-- A Task completed 1 hour before the reference time 100 h. -/
def task1h : Task :=
  { id := "t01", title := "Recent", subjectId := "1", dueDate := 0, type := .task
    completed := some true, completedAt := some (99 * 3600000) }

/-- A persisted Task completed at time 0. -/
def persistedDoneTask : PersistedTask :=
  { id := "t1", title := "Essay", subjectId := "1", dueDate := some 0, type := .task
    completed := some true, completedAt := some 0 }

/-- A stored blob holding only `persistedDoneTask`. -/
def blobDone : StoredBlob :=
  { subjects := some defaultSubjects, tasks := some [persistedDoneTask]
    studySessions := some [] }

/-- An in-memory Task completed at time 0 (expired 25 hours later). -/
def taskExpired : Task :=
  { id := "te", title := "Expired", subjectId := "1", dueDate := 0, type := .task
    completed := some true, completedAt := some 0 }

/-- A state holding an expired completed Task. -/
def stateExpired : AppState :=
  { subjects := defaultSubjects, tasks := [taskExpired], studySessions := [] }

/-- An uncompleted Task. -/
def taskFresh : Task :=
  { id := "tf", title := "Fresh", subjectId := "1", dueDate := 500, type := .assignment }

/-- A StudySession with an already-normalized title. -/
def sessionTidy : StudySession :=
  { id := "st", subjectId := "1", title := some "Algebra", date := 700
    startTime := "4:00 PM", duration := "45 min" }

/-- A state that survives the persistence round trip unchanged. -/
def stateTidy : AppState :=
  { subjects := defaultSubjects, tasks := [taskFresh], studySessions := [sessionTidy] }

/-- A legacy persisted Task with no serialized date fields at all. -/
def persistedNoDates : PersistedTask :=
  { id := "t9", title := "Legacy", subjectId := "1", dueDate := none, type := .task }

/-- A legacy persisted StudySession with no serialized date fields. -/
def persistedNoDatesSession : PersistedSession :=
  { id := "s9", subjectId := "1", date := none, startTime := "9:00 AM", duration := "30 min" }

/-- Subject A of the dangling-link scenario. -/
def subjectA : Subject := { id := "A", name := "Maths", color := "#6B9BC3" }

/-- Subject B of the dangling-link scenario. -/
def subjectB : Subject := { id := "B", name := "Physics", color := "#9B7FA8" }

/-- A Task under Subject A. -/
def taskT : Task :=
  { id := "T", title := "Exam prep", subjectId := "A", dueDate := 0, type := .exam }

/-- A Task under Subject B. -/
def taskU : Task :=
  { id := "U", title := "Lab report", subjectId := "B", dueDate := 0, type := .assignment }

/-- A StudySession under Subject B whose `linkedTaskId` references `taskT`. -/
def sessionS : StudySession :=
  { id := "S", subjectId := "B", title := some "Revision", date := 0
    startTime := "5:00 PM", duration := "60 min", linkedTaskId := some "T" }

/-- The dangling-link scenario state. -/
def stateAB : AppState :=
  { subjects := [subjectA, subjectB], tasks := [taskT, taskU], studySessions := [sessionS] }

/-! ## Claim theorems -/

/-- C1: the toggle handlers do not maintain the completion pairing
invariant. Starting from a state satisfying the invariant, toggling the
completed Task to uncompleted leaves `completedAt` set (to the toggle
time) instead of clearing it, for Tasks and StudySessions alike; the
resulting records have `completed = false` with `completedAt` defined. -/
theorem toggle_to_false_keeps_completedAt :
    (toggleTaskCompleted 5000 "t1" stateDone).tasks =
      [{ taskDone with completed := some false, completedAt := some 5000 }] ∧
    (handleToggleSessionCompleted 5000 "s1" stateDone).studySessions =
      [{ sessionDone with completed := some false, completedAt := some 5000 }] := by
  decide

/-- C2: cascade integrity of `handleDeleteSubject`. After deleting a
Subject id, no remaining Subject has that id and no remaining Task or
StudySession has that `subjectId`; Tasks and StudySessions with a
different `subjectId` all survive, and the three collections are filtered
by the single handler call. -/
theorem deleteSubject_cascade_integrity (sid : String) (st : AppState) :
    (∀ s ∈ (handleDeleteSubject sid st).subjects, s.id ≠ sid) ∧
    (∀ t ∈ (handleDeleteSubject sid st).tasks, t.subjectId ≠ sid) ∧
    (∀ s ∈ (handleDeleteSubject sid st).studySessions, s.subjectId ≠ sid) ∧
    (∀ t ∈ st.tasks, t.subjectId ≠ sid → t ∈ (handleDeleteSubject sid st).tasks) ∧
    (∀ s ∈ st.studySessions, s.subjectId ≠ sid →
      s ∈ (handleDeleteSubject sid st).studySessions) := by
  simp only [handleDeleteSubject, List.mem_filter, bne_iff_ne, ne_eq]
  refine ⟨fun s hs => hs.2, fun t ht => ht.2, fun s hs => hs.2, ?_, ?_⟩
  · exact fun t ht hne => ⟨ht, hne⟩
  · exact fun s hs hne => ⟨hs, hne⟩

/-- Witness for C2: in the two-subject scenario, the Task under Subject B
survives deleting Subject A. -/
theorem deleteSubject_cascade_integrity_witness :
    taskU ∈ (handleDeleteSubject "A" stateAB).tasks :=
  (deleteSubject_cascade_integrity "A" stateAB).2.2.2.1 taskU (by decide) (by decide)

/-- C3: `handleDeleteTask` unlinks rather than deletes. The StudySession
collection keeps its length; position by position, a session that pointed
at the deleted Task id survives with `linkedTaskId` cleared and every
other session is unchanged; and the surviving Tasks are exactly those
with a different id. -/
theorem deleteTask_unlinks_sessions (tid : String) (st : AppState) :
    ((handleDeleteTask tid st).studySessions.length = st.studySessions.length) ∧
    (∀ t, t ∈ (handleDeleteTask tid st).tasks ↔ t ∈ st.tasks ∧ t.id ≠ tid) ∧
    (∀ i : Nat, (handleDeleteTask tid st).studySessions[i]? =
      (st.studySessions[i]?).map fun s =>
        if s.linkedTaskId = some tid then { s with linkedTaskId := none } else s) := by
  refine ⟨by simp [handleDeleteTask], ?_, ?_⟩
  · intro t
    simp [handleDeleteTask, List.mem_filter, bne_iff_ne]
  · intro i
    simp only [handleDeleteTask, List.getElem?_map]
    rcases st.studySessions[i]? with _ | s
    · rfl
    · by_cases h : s.linkedTaskId = some tid <;> simp [h]

/-- Witness for C3: deleting `taskT` keeps `sessionS` (at position 0) with
its link cleared. -/
theorem deleteTask_unlinks_sessions_witness :
    (handleDeleteTask "T" stateAB).studySessions[0]? =
      some { sessionS with linkedTaskId := none } := by
  have h := (deleteTask_unlinks_sessions "T" stateAB).2.2 0
  simpa using h

/-- Counterexample to C4 as stated: a Task whose completion age equals the
24-hour window exactly is removed by the sweep, although its age does not
strictly exceed the window, so the sweep does not remove exactly the
strictly-older Tasks. -/
theorem sweep_removes_at_exact_window :
    pruneAutoDeletedCompletedTasks 86400000 [taskBoundary] = [] ∧
    ¬((86400000 : Int) - 0 > AUTO_DELETE_COMPLETED_AFTER_MS) := by
  decide

/-- C4 (amended): the sweep removes exactly the Tasks that are completed,
have `completedAt` set, and whose age has reached the window
(`now - completedAt ≥ 24 h`, boundary included); it never increases the
Task count, it is idempotent, and on the 25-hour/1-hour pair it removes
only the 25-hour Task. -/
theorem sweep_removes_exactly_reached_window (now : Int) (tasks : List Task) :
    (∀ t, t ∈ pruneAutoDeletedCompletedTasks now tasks ↔
      t ∈ tasks ∧ ¬(t.completed = some true ∧
        ∃ ca, t.completedAt = some ca ∧ now - ca ≥ AUTO_DELETE_COMPLETED_AFTER_MS)) ∧
    ((pruneAutoDeletedCompletedTasks now tasks).length ≤ tasks.length) ∧
    (pruneAutoDeletedCompletedTasks now (pruneAutoDeletedCompletedTasks now tasks) =
      pruneAutoDeletedCompletedTasks now tasks) ∧
    (pruneAutoDeletedCompletedTasks (100 * 3600000) [task25h, task1h] = [task1h]) := by
  have hp : ∀ t : Task,
      ((match t.completed, t.completedAt with
        | some true, some ca => decide (now - ca < AUTO_DELETE_COMPLETED_AFTER_MS)
        | _, _ => true) = true ↔
      ¬(t.completed = some true ∧
        ∃ ca, t.completedAt = some ca ∧ now - ca ≥ AUTO_DELETE_COMPLETED_AFTER_MS)) := by
    intro t
    rcases hc : t.completed with _ | b
    · simp [hc]
    · rcases b
      · simp [hc]
      · rcases ha : t.completedAt with _ | ca
        · simp [hc, ha]
        · simp [hc, ha]
  refine ⟨?_, List.length_filter_le _ _, ?_, by decide⟩
  · intro t
    rw [pruneAutoDeletedCompletedTasks, List.mem_filter, hp t]
  · simp only [pruneAutoDeletedCompletedTasks, List.filter_filter]
    congr 1
    funext t
    exact Bool.and_self _

/-- Counterexample to C5 as stated: hydrate at time 0 a blob holding a
Task completed at time 0, then apply a mutation step (adding a Subject) at
time 25 h. The resulting state — reached after a mutation step and
persisted without re-sweeping — still contains the Task, whose completion
age strictly exceeds the 24-hour window. -/
theorem expired_task_survives_mutation :
    (runMutations [(90000000, Mutation.addSubject "Biology" "#00ff00")]
        (loadState 0 blobDone)).tasks = [loadTask 0 persistedDoneTask] ∧
    (loadTask 0 persistedDoneTask).completed = some true ∧
    (loadTask 0 persistedDoneTask).completedAt = some 0 ∧
    ((90000000 : Int) - 0 > AUTO_DELETE_COMPLETED_AFTER_MS) := by
  decide

/-- C5 (amended): the sweep runs exactly once, inside the hydration
effect: immediately after hydration at time `now`, no Task whose
completion age has reached the 24-hour window remains; the persistence
effect and the mutation handlers never re-apply it (see the
counterexample trace, where an expired Task survives a later mutation). -/
theorem hydration_sweeps_expired (now : Int) (b : StoredBlob) :
    ∀ t ∈ (loadState now b).tasks, t.completed = some true →
      ∀ ca, t.completedAt = some ca → now - ca < AUTO_DELETE_COMPLETED_AFTER_MS := by
  intro t ht hc ca hca
  have hmem := List.mem_filter.mp ht
  have hpred := hmem.2
  rw [hc, hca] at hpred
  simpa using hpred

/-- Witness for C5 (amended): hydrating `blobDone` at time 1000 keeps the
Task completed at time 0, whose age is below the window. -/
theorem hydration_sweeps_expired_witness :
    (1000 : Int) - 0 < AUTO_DELETE_COMPLETED_AFTER_MS :=
  hydration_sweeps_expired 1000 blobDone (loadTask 1000 persistedDoneTask)
    (by decide) (by decide) 0 (by decide)

/-- Counterexample to C6 as stated: a state holding a Task completed 25
hours before load time does not survive the round trip — the hydration
sweep drops the Task — so `load(save(x))` differs from `x` beyond
date-precision truncation and title normalization (the Task collection
shrinks). -/
theorem roundtrip_drops_expired_task :
    (loadState 90000000 (save stateExpired)).tasks = [] ∧ stateExpired.tasks ≠ [] := by
  decide

/-- C6 (amended): `load(save(x))` at load time `now` returns `x` exactly,
provided no Task of `x` is already expired at `now` (otherwise the
hydration sweep removes it) and every StudySession title is present,
trimmed and non-blank (otherwise title normalization rewrites it); date
fields round-trip at full millisecond precision. -/
theorem load_save_roundtrip (now : Int) (st : AppState)
    (htasks : ∀ t ∈ st.tasks, t.completed = some true →
      ∀ ca, t.completedAt = some ca → now - ca < AUTO_DELETE_COMPLETED_AFTER_MS)
    (htitles : ∀ s ∈ st.studySessions, ∃ str, s.title = some str ∧
      trimList str.data = str.data ∧ str ≠ "") :
    loadState now (save st) = st := by
  obtain ⟨subs, tasks, sess⟩ := st
  simp only [loadState, save, Option.getD_some]
  have htask : ∀ t : Task, loadTask now (saveTask t) = t := fun t => rfl
  have hmapt : (tasks.map saveTask).map (loadTask now) = tasks := by
    rw [List.map_map]
    exact ((List.map_congr_left fun t _ => htask t).trans (List.map_id tasks))
  have hsess : (sess.map saveSession).map (loadSession now) = sess := by
    rw [List.map_map]
    refine (List.map_congr_left ?_).trans (List.map_id sess)
    intro s hs
    obtain ⟨str, hstr, htrim, hne⟩ := htitles s hs
    obtain ⟨id, subjectId, title, date, startTime, duration, linkedTaskId, completed,
      completedAt⟩ := s
    simp only [Function.comp_apply, loadSession, saveSession, Option.getD_some,
      StudySession.mk.injEq, and_true, true_and]
    simp only at hstr
    subst hstr
    simp only [normalizeTitle, htrim]
    have : String.mk str.data = str := rfl
    rw [this]
    simp [hne]
  rw [hmapt, hsess]
  have hkeep : pruneAutoDeletedCompletedTasks now tasks = tasks := by
    rw [pruneAutoDeletedCompletedTasks, List.filter_eq_self]
    intro t ht
    rcases hc : t.completed with _ | b
    · simp
    · rcases b
      · simp
      · rcases ha : t.completedAt with _ | ca
        · simp
        · have := htasks t ht hc ca ha
          simp [this]
  rw [hkeep]

/-- Witness for C6 (amended): the tidy state round-trips unchanged at load
time 1000. -/
theorem load_save_roundtrip_witness :
    loadState 1000 (save stateTidy) = stateTidy := by
  refine load_save_roundtrip 1000 stateTidy ?_ ?_
  · intro t ht hc ca hca
    simp only [stateTidy, List.mem_singleton] at ht
    subst ht
    simp [taskFresh] at hc
  · intro s hs
    simp only [stateTidy, List.mem_singleton] at hs
    subst hs
    exact ⟨"Algebra", rfl, by decide, by decide⟩

/-- Counterexample to C7 as stated: loading a persisted Task with no
`completedAt` field yields `completedAt = undefined`, not the current
time — only `dueDate` (and the session `date`) default to "now". -/
theorem missing_completedAt_loads_as_absent :
    (loadTask 100 persistedNoDates).completedAt = none ∧
    (loadTask 100 persistedNoDates).completedAt ≠ some 100 ∧
    (loadTask 100 persistedNoDates).dueDate = 100 := by
  decide

/-- C7 (amended): on load, a present `dueDate` or session `date` is
reconstructed exactly and a missing one defaults to the current time,
while `completedAt` is carried through unchanged — present values are
reconstructed, missing ones stay absent; no input fails the load. -/
theorem date_reconstruction_defaults (now : Int) (p : PersistedTask)
    (q : PersistedSession) :
    (p.dueDate = none → (loadTask now p).dueDate = now) ∧
    (∀ d, p.dueDate = some d → (loadTask now p).dueDate = d) ∧
    ((loadTask now p).completedAt = p.completedAt) ∧
    (q.date = none → (loadSession now q).date = now) ∧
    (∀ d, q.date = some d → (loadSession now q).date = d) ∧
    ((loadSession now q).completedAt = q.completedAt) := by
  refine ⟨fun h => ?_, fun d h => ?_, rfl, fun h => ?_, fun d h => ?_, rfl⟩ <;>
    simp [loadTask, loadSession, h]

/-- Witness for C7 (amended): the legacy records with no date fields load
with `dueDate` and `date` defaulted to 100. -/
theorem date_reconstruction_defaults_witness :
    (loadTask 100 persistedNoDates).dueDate = 100 ∧
    (loadSession 100 persistedNoDatesSession).date = 100 :=
  ⟨(date_reconstruction_defaults 100 persistedNoDates persistedNoDatesSession).1 rfl,
   (date_reconstruction_defaults 100 persistedNoDates persistedNoDatesSession).2.2.2.1 rfl⟩

/-- C8: the duration parser returns 90 on "1h 30m", 90 on "90 min", 135 on
"2:15" and 0 on ""; the colon form beats the integer fallbacks ("1:30" is
90, not 1), hour/minute tokens accept decimal quantities and round
("1.5h" is 90), a bare integer is minutes ("45"), otherwise the first
integer anywhere is used ("about 45 things"), and unparseable input
yields 0 ("abc") — the parser is total and never fails. -/
theorem parseDuration_scenarios :
    parseDurationToMinutes "1h 30m" = 90 ∧
    parseDurationToMinutes "90 min" = 90 ∧
    parseDurationToMinutes "2:15" = 135 ∧
    parseDurationToMinutes "" = 0 ∧
    parseDurationToMinutes "1:30" = 90 ∧
    parseDurationToMinutes "1.5h" = 90 ∧
    parseDurationToMinutes "45" = 45 ∧
    parseDurationToMinutes "about 45 things" = 45 ∧
    parseDurationToMinutes "abc" = 0 := by
  decide

/-- C10: `handleDeleteSubject` leaves every surviving StudySession record
unchanged — the survivors are exactly the original records whose
`subjectId` differs, `linkedTaskId` included — and performs no unlink
step: in the two-subject scenario, deleting Subject A cascade-deletes
`taskT` but `sessionS` (under Subject B) keeps its now-dangling
`linkedTaskId = "T"`. -/
theorem deleteSubject_keeps_session_links (sid : String) (st : AppState) :
    (∀ s, s ∈ (handleDeleteSubject sid st).studySessions ↔
      s ∈ st.studySessions ∧ s.subjectId ≠ sid) ∧
    (sessionS ∈ (handleDeleteSubject "A" stateAB).studySessions ∧
     sessionS.linkedTaskId = some "T" ∧
     ∀ t ∈ (handleDeleteSubject "A" stateAB).tasks, t.id ≠ "T") := by
  refine ⟨?_, by decide, by decide, by decide⟩
  intro s
  simp [handleDeleteSubject, List.mem_filter, bne_iff_ne]

/-- Witness for C10: `sessionS` survives deleting Subject A, by the
survivor characterization. -/
theorem deleteSubject_keeps_session_links_witness :
    sessionS ∈ (handleDeleteSubject "A" stateAB).studySessions :=
  ((deleteSubject_keeps_session_links "A" stateAB).1 sessionS).mpr ⟨by decide, by decide⟩

/-! ## Helper lemmas for the parser/formatter round trip (claim C9) -/

/-- Basic facts about the ten decimal digit characters. -/
theorem digitChar_facts : ∀ d, d < 10 → (digitChar d).isDigit = true ∧
    (digitChar d).toLower = digitChar d ∧ (digitChar d).isWhitespace = false ∧
    digitVal (digitChar d) = d := by decide

/-- Unfolding equation of `natDec`. -/
theorem natDec_eq (n : Nat) :
    natDec n = if n < 10 then [digitChar n] else natDec (n / 10) ++ [digitChar (n % 10)] := by
  rw [natDec]

/-- Every character of `natDec n` is a decimal digit character. -/
theorem natDec_mem (n : Nat) : ∀ c ∈ natDec n, ∃ d, d < 10 ∧ c = digitChar d := by
  induction n using Nat.strong_induction_on with
  | _ n ih =>
    rw [natDec_eq]
    by_cases h : n < 10
    · simp only [if_pos h, List.mem_singleton]
      rintro c rfl
      exact ⟨n, h, rfl⟩
    · simp only [if_neg h, List.mem_append, List.mem_singleton]
      rintro c (hc | rfl)
      · exact ih (n / 10) (Nat.div_lt_self (by omega) (by omega)) c hc
      · exact ⟨n % 10, Nat.mod_lt _ (by omega), rfl⟩

/-- The decimal rendering is never empty. -/
theorem natDec_ne_nil (n : Nat) : natDec n ≠ [] := by
  rw [natDec_eq]
  by_cases h : n < 10 <;> simp [h]

/-- Every character of `natDec n` satisfies `Char.isDigit`. -/
theorem natDec_isDigit (n : Nat) : ∀ c ∈ natDec n, c.isDigit = true := by
  intro c hc
  obtain ⟨d, hd, rfl⟩ := natDec_mem n c hc
  exact (digitChar_facts d hd).1

/-- Reading one more trailing digit multiplies the accumulated value by 10. -/
theorem digitsToNat_snoc (l : List Char) (c : Char) :
    digitsToNat (l ++ [c]) = 10 * digitsToNat l + digitVal c := by
  simp [digitsToNat, List.foldl_append]

/-- Reading back the decimal rendering returns the number. -/
theorem digitsToNat_natDec (n : Nat) : digitsToNat (natDec n) = n := by
  induction n using Nat.strong_induction_on with
  | _ n ih =>
    rw [natDec_eq]
    by_cases h : n < 10
    · have hd := (digitChar_facts n h).2.2.2
      simp only [if_pos h, digitsToNat, List.foldl_cons, List.foldl_nil]
      omega
    · simp only [if_neg h]
      rw [digitsToNat_snoc, ih (n / 10) (Nat.div_lt_self (by omega) (by omega))]
      have hd := (digitChar_facts (n % 10) (Nat.mod_lt _ (by omega))).2.2.2
      omega

/-- The greedy digit scan consumes exactly an all-digit prefix when the
rest starts with a non-digit (or is empty). -/
theorem takeDigits_append (ds rest : List Char) (hall : ∀ c ∈ ds, c.isDigit = true)
    (hrest : ∀ c cs, rest = c :: cs → c.isDigit = false) :
    takeDigits (ds ++ rest) = (ds, rest) := by
  induction ds with
  | nil =>
    simp only [List.nil_append]
    cases rest with
    | nil => rfl
    | cons c cs => simp [takeDigits, hrest c cs rfl]
  | cons d ds ih =>
    have hd : d.isDigit = true := hall d (by simp)
    have ih2 := ih (fun c hc => hall c (by simp [hc]))
    simp [takeDigits, hd, ih2]

/-- Whitespace skipping stops at a non-whitespace head. -/
theorem skipSpaces_not_white (c : Char) (l : List Char) (h : c.isWhitespace = false) :
    skipSpaces (c :: l) = c :: l := by
  simp [skipSpaces, h]

/-- The quantity scan on an all-digit prefix followed by a non-digit,
non-dot rest returns the digits as an integer quantity. -/
theorem scanQty_digits (ds rest : List Char) (hne : ds ≠ [])
    (hall : ∀ c ∈ ds, c.isDigit = true)
    (hrest : ∀ c cs, rest = c :: cs → c.isDigit = false ∧ ¬c = '.') :
    scanQty (ds ++ rest) = some (⟨digitsToNat ds, 0⟩, rest) := by
  have ht := takeDigits_append ds rest hall (fun c cs h => (hrest c cs h).1)
  simp only [scanQty, ht]
  rw [if_neg hne]
  cases rest with
  | nil => rfl
  | cons c cs =>
    have hcd := hrest c cs rfl
    simp [hcd.2]

/-- A unit match cannot start at a non-digit character. -/
theorem tryUnitAt_not_digit (alts : List (List Char)) (c : Char) (cs : List Char)
    (h : c.isDigit = false) : tryUnitAt alts (c :: cs) = none := by
  simp [tryUnitAt, scanQty, takeDigits, h]

/-- The leftmost scan steps over a non-digit head. -/
theorem scanUnit_cons_notdigit (alts : List (List Char)) (c : Char) (cs : List Char)
    (h : c.isDigit = false) : scanUnit alts (c :: cs) = scanUnit alts cs := by
  simp [scanUnit, tryUnitAt_not_digit alts c cs h]

/-- The hour alternatives all start with the letter h. -/
theorem matchAlts_hour_head (c : Char) (l : List Char) (h : ¬c = 'h') :
    matchAlts hourAlts (c :: l) = false := by
  simp [matchAlts, hourAlts, matchToken, h]

/-- The minute alternatives all start with the letter m. -/
theorem matchAlts_min_head (c : Char) (l : List Char) (h : ¬c = 'm') :
    matchAlts minAlts (c :: l) = false := by
  simp [matchAlts, minAlts, matchToken, h]

/-- The single letter h followed by a space is an hour-unit match. -/
theorem matchAlts_hour_space (l : List Char) :
    matchAlts hourAlts ('h' :: ' ' :: l) = true := by
  have hw : isWordChar ' ' = false := by decide
  simp [matchAlts, hourAlts, matchToken, boundaryOk, hw]

/-- The leftmost scan passes over an all-digit run that is followed by a
character on which the unit alternatives fail. -/
theorem scanUnit_digits_skip (alts : List (List Char)) (ds : List Char) (c : Char)
    (rest : List Char) (hall : ∀ x ∈ ds, x.isDigit = true) (hc : c.isDigit = false)
    (hdot : ¬c = '.') (hsp : c.isWhitespace = false)
    (hfail : matchAlts alts (c :: rest) = false) :
    scanUnit alts (ds ++ c :: rest) = scanUnit alts rest := by
  induction ds with
  | nil =>
    simp only [List.nil_append]
    exact scanUnit_cons_notdigit alts c rest hc
  | cons d ds ih =>
    have hq := scanQty_digits (d :: ds) (c :: rest) (by simp) hall
      (fun x xs hx => by
        injection hx with h1 h2
        subst h1
        exact ⟨hc, hdot⟩)
    have htry : tryUnitAt alts ((d :: ds) ++ c :: rest) = none := by
      simp only [tryUnitAt, hq]
      rw [skipSpaces_not_white c rest hsp, hfail]
      simp
    have ihh := ih (fun x hx => hall x (List.mem_cons_of_mem d hx))
    simp only [List.cons_append] at htry ⊢
    simp only [scanUnit, htry]
    exact ihh

/-- The leftmost scan succeeds at an all-digit run whose rest matches the
unit alternatives after optional spaces. -/
theorem scanUnit_digits_hit (alts : List (List Char)) (ds rest : List Char)
    (hne : ds ≠ []) (hall : ∀ x ∈ ds, x.isDigit = true)
    (hrest : ∀ c cs, rest = c :: cs → c.isDigit = false ∧ ¬c = '.')
    (hmatch : matchAlts alts (skipSpaces rest) = true) :
    scanUnit alts (ds ++ rest) = some ⟨digitsToNat ds, 0⟩ := by
  obtain ⟨d, ds2, rfl⟩ := List.exists_cons_of_ne_nil hne
  have hq := scanQty_digits (d :: ds2) rest (by simp) hall hrest
  have htry : tryUnitAt alts ((d :: ds2) ++ rest) = some ⟨digitsToNat (d :: ds2), 0⟩ := by
    simp only [tryUnitAt, hq, hmatch, if_true]
  simp only [List.cons_append] at htry ⊢
  simp only [scanUnit, htry]

/-- The anchored colon pattern fails on input ending in a non-digit. -/
theorem colonMatch_append_last (l : List Char) (c : Char) (h : c.isDigit = false) :
    colonMatch (l ++ [c]) = none := by
  rcases l with _ | ⟨a, _ | ⟨b, _ | ⟨d, _ | ⟨e, _ | ⟨f, tl⟩⟩⟩⟩⟩
  · rfl
  · rfl
  · rfl
  · simp [colonMatch, h]
  · simp [colonMatch, h]
  · rcases tl with _ | ⟨x, xs⟩ <;> rfl

/-- Trimming is the identity on input with non-whitespace ends. -/
theorem trimList_eq_self (l : List Char)
    (h1 : ∀ c cs, l = c :: cs → c.isWhitespace = false)
    (h2 : ∀ c cs, l.reverse = c :: cs → c.isWhitespace = false) :
    trimList l = l := by
  have hd : l.dropWhile Char.isWhitespace = l := by
    cases l with
    | nil => rfl
    | cons c cs => simp [List.dropWhile_cons, h1 c cs rfl]
  rw [trimList, hd]
  have hr : l.reverse.dropWhile Char.isWhitespace = l.reverse := by
    cases hrev : l.reverse with
    | nil => simp
    | cons c cs => rw [← hrev]; rw [hrev]; simp [List.dropWhile_cons, h2 c cs hrev]
  rw [hr, List.reverse_reverse]

/-- Lowercasing is the identity on characters that are their own
lowercase. -/
theorem map_toLower_self (l : List Char) (h : ∀ c ∈ l, c.toLower = c) :
    l.map Char.toLower = l := by
  induction l with
  | nil => rfl
  | cons c cs ih =>
    simp only [List.map_cons, h c (by simp), ih (fun x hx => h x (by simp [hx]))]

/-- On integer quantities the exact rounding of `hours * 60 + minutes` is
plain arithmetic. -/
theorem roundUnits_int (a b : Nat) : roundUnits ⟨a, 0⟩ ⟨b, 0⟩ = a * 60 + b := by
  simp only [roundUnits, pow_zero, Nat.add_zero, Nat.mul_one]
  omega

/-- The exact decimal rounding agrees with JS `Math.round` of the rational
value `hours * 60 + minutes`. -/
theorem roundUnits_eq_jsRound (x y : DecQty) :
    roundUnits x y = (jsRound (x.val * 60 + y.val)).toNat := by
  obtain ⟨hn, hf⟩ := x
  obtain ⟨mn, mf⟩ := y
  have key : (DecQty.val ⟨hn, hf⟩ * 60 + DecQty.val ⟨mn, mf⟩ + 1 / 2 : ℚ) =
      (((2 * (hn * 60 * 10 ^ mf + mn * 10 ^ hf) + 10 ^ (hf + mf) : ℕ) : ℤ) : ℚ) /
        ((2 * 10 ^ (hf + mf) : ℕ) : ℚ) := by
    simp only [DecQty.val]
    have hd1 : ((10 : ℚ) ^ hf) ≠ 0 := by positivity
    have hd2 : ((10 : ℚ) ^ mf) ≠ 0 := by positivity
    push_cast
    rw [pow_add]
    field_simp
    ring
  rw [jsRound, key, Rat.floor_intCast_div_natCast]
  rw [show (((2 * (hn * 60 * 10 ^ mf + mn * 10 ^ hf) + 10 ^ (hf + mf) : ℕ) : ℤ) /
      ((2 * 10 ^ (hf + mf) : ℕ) : ℤ)) =
      (((2 * (hn * 60 * 10 ^ mf + mn * 10 ^ hf) + 10 ^ (hf + mf)) /
        (2 * 10 ^ (hf + mf)) : ℕ) : ℤ) from (Int.natCast_ediv _ _).symm]
  rw [Int.toNat_natCast]
  rfl

/-- The parse of a non-empty clean input (fixed by lowercasing and
trimming) reduces to the cascade over the clean character list. -/
theorem parse_clean (L : List Char) (hne : L ≠ [])
    (hclean : trimList (L.map Char.toLower) = L) :
    parseDurationToMinutes (String.mk L) =
      (match colonMatch L with
       | some hm => hm.1 * 60 + hm.2
       | none =>
         if (scanUnit hourAlts L).isSome || (scanUnit minAlts L).isSome then
           roundUnits ((scanUnit hourAlts L).getD ⟨0, 0⟩) ((scanUnit minAlts L).getD ⟨0, 0⟩)
         else if justNumber L then digitsToNat L
         else match firstNum L with | some n => n | none => 0) := by
  have hs : ¬(String.mk L = "") := fun hcontra => hne (congrArg String.data hcontra)
  have hdata : (String.mk L).data = L := rfl
  simp only [parseDurationToMinutes, if_neg hs, hdata, hclean]

/-- Heads of `natDec`-prefixed lists are digit characters, hence not
whitespace. -/
theorem natDec_head_not_white (n : Nat) (rest : List Char) (c : Char) (cs : List Char)
    (h : natDec n ++ rest = c :: cs) : c.isWhitespace = false := by
  obtain ⟨d, ds, hnd⟩ := List.exists_cons_of_ne_nil (natDec_ne_nil n)
  rw [hnd] at h
  simp only [List.cons_append] at h
  injection h with h1 h2
  obtain ⟨d2, hd2, hkey⟩ := natDec_mem n d (by rw [hnd]; simp)
  rw [← h1, hkey]
  exact (digitChar_facts d2 hd2).2.2.1

/-- Parsing the minutes-only rendering recovers the number. -/
theorem parse_m_form (n : Nat) :
    parseDurationToMinutes (String.mk (natDec n ++ ['m'])) = n := by
  have hlower : ∀ c ∈ natDec n ++ ['m'], c.toLower = c := by
    intro c hc
    rcases List.mem_append.mp hc with hc | hc
    · obtain ⟨d, hd, rfl⟩ := natDec_mem n c hc
      exact (digitChar_facts d hd).2.1
    · simp only [List.mem_singleton] at hc
      subst hc
      decide
  have hclean : trimList ((natDec n ++ ['m']).map Char.toLower) = natDec n ++ ['m'] := by
    rw [map_toLower_self _ hlower]
    refine trimList_eq_self _ (fun c cs h => natDec_head_not_white n _ c cs h) ?_
    intro c cs h
    rw [List.reverse_append] at h
    simp only [List.reverse_singleton, List.singleton_append] at h
    injection h with h1 h2
    subst h1
    decide
  rw [parse_clean _ (by simp) hclean]
  have hcolon : colonMatch (natDec n ++ ['m']) = none :=
    colonMatch_append_last _ _ (by decide)
  have hhour : scanUnit hourAlts (natDec n ++ ['m']) = none := by
    have hskip := scanUnit_digits_skip hourAlts (natDec n) 'm' [] (natDec_isDigit n)
      (by decide) (by decide) (by decide) (matchAlts_hour_head 'm' [] (by decide))
    rw [show natDec n ++ ['m'] = natDec n ++ 'm' :: [] from rfl, hskip]
    rfl
  have hmin : scanUnit minAlts (natDec n ++ ['m']) = some ⟨n, 0⟩ := by
    have hhit := scanUnit_digits_hit minAlts (natDec n) ['m'] (natDec_ne_nil n)
      (natDec_isDigit n)
      (fun c cs h => by
        injection h with h1 h2
        subst h1
        exact ⟨by decide, by decide⟩)
      (by decide)
    rw [digitsToNat_natDec] at hhit
    exact hhit
  rw [hcolon]
  simp only [hhour, hmin, Option.isSome_none, Option.isSome_some, Bool.false_or,
    if_true, Option.getD_none, Option.getD_some]
  rw [roundUnits_int]
  omega

/-- Parsing the whole-hours rendering recovers sixty times the number. -/
theorem parse_h_form (n : Nat) :
    parseDurationToMinutes (String.mk (natDec n ++ ['h'])) = n * 60 := by
  have hlower : ∀ c ∈ natDec n ++ ['h'], c.toLower = c := by
    intro c hc
    rcases List.mem_append.mp hc with hc | hc
    · obtain ⟨d, hd, rfl⟩ := natDec_mem n c hc
      exact (digitChar_facts d hd).2.1
    · simp only [List.mem_singleton] at hc
      subst hc
      decide
  have hclean : trimList ((natDec n ++ ['h']).map Char.toLower) = natDec n ++ ['h'] := by
    rw [map_toLower_self _ hlower]
    refine trimList_eq_self _ (fun c cs h => natDec_head_not_white n _ c cs h) ?_
    intro c cs h
    rw [List.reverse_append] at h
    simp only [List.reverse_singleton, List.singleton_append] at h
    injection h with h1 h2
    subst h1
    decide
  rw [parse_clean _ (by simp) hclean]
  have hcolon : colonMatch (natDec n ++ ['h']) = none :=
    colonMatch_append_last _ _ (by decide)
  have hhour : scanUnit hourAlts (natDec n ++ ['h']) = some ⟨n, 0⟩ := by
    have hhit := scanUnit_digits_hit hourAlts (natDec n) ['h'] (natDec_ne_nil n)
      (natDec_isDigit n)
      (fun c cs h => by
        injection h with h1 h2
        subst h1
        exact ⟨by decide, by decide⟩)
      (by decide)
    rw [digitsToNat_natDec] at hhit
    exact hhit
  have hmin : scanUnit minAlts (natDec n ++ ['h']) = none := by
    have hskip := scanUnit_digits_skip minAlts (natDec n) 'h' [] (natDec_isDigit n)
      (by decide) (by decide) (by decide) (matchAlts_min_head 'h' [] (by decide))
    rw [show natDec n ++ ['h'] = natDec n ++ 'h' :: [] from rfl, hskip]
    rfl
  rw [hcolon]
  simp only [hhour, hmin, Option.isSome_none, Option.isSome_some, Bool.true_or,
    if_true, Option.getD_none, Option.getD_some]
  rw [roundUnits_int]
  omega

/-- Parsing the mixed rendering recovers hours times sixty plus minutes. -/
theorem parse_hm_form (a b : Nat) :
    parseDurationToMinutes
      (String.mk (natDec a ++ 'h' :: ' ' :: (natDec b ++ ['m']))) = a * 60 + b := by
  have hassoc : natDec a ++ 'h' :: ' ' :: (natDec b ++ ['m']) =
      (natDec a ++ 'h' :: ' ' :: natDec b) ++ ['m'] := by
    simp
  have hlower : ∀ c ∈ natDec a ++ 'h' :: ' ' :: (natDec b ++ ['m']), c.toLower = c := by
    intro c hc
    simp only [List.mem_append, List.mem_cons, List.mem_singleton, List.not_mem_nil,
      or_false] at hc
    rcases hc with hc | rfl | rfl | hc | rfl
    · obtain ⟨d, hd, rfl⟩ := natDec_mem a c hc
      exact (digitChar_facts d hd).2.1
    · decide
    · decide
    · obtain ⟨d, hd, rfl⟩ := natDec_mem b c hc
      exact (digitChar_facts d hd).2.1
    · decide
  have hclean : trimList ((natDec a ++ 'h' :: ' ' :: (natDec b ++ ['m'])).map Char.toLower) =
      natDec a ++ 'h' :: ' ' :: (natDec b ++ ['m']) := by
    rw [map_toLower_self _ hlower]
    refine trimList_eq_self _ (fun c cs h => natDec_head_not_white a _ c cs h) ?_
    intro c cs h
    rw [hassoc, List.reverse_append] at h
    simp only [List.reverse_singleton, List.singleton_append] at h
    injection h with h1 h2
    subst h1
    decide
  rw [parse_clean _ (by simp) hclean]
  have hcolon : colonMatch (natDec a ++ 'h' :: ' ' :: (natDec b ++ ['m'])) = none := by
    rw [hassoc]
    exact colonMatch_append_last _ _ (by decide)
  have hhour : scanUnit hourAlts (natDec a ++ 'h' :: ' ' :: (natDec b ++ ['m'])) =
      some ⟨a, 0⟩ := by
    have hhit := scanUnit_digits_hit hourAlts (natDec a) ('h' :: ' ' :: (natDec b ++ ['m']))
      (natDec_ne_nil a) (natDec_isDigit a)
      (fun c cs h => by
        injection h with h1 h2
        subst h1
        exact ⟨by decide, by decide⟩)
      (by
        rw [skipSpaces_not_white 'h' _ (by decide)]
        exact matchAlts_hour_space _)
    rw [digitsToNat_natDec] at hhit
    exact hhit
  have hmin : scanUnit minAlts (natDec a ++ 'h' :: ' ' :: (natDec b ++ ['m'])) =
      some ⟨b, 0⟩ := by
    have h1 : scanUnit minAlts (natDec a ++ 'h' :: (' ' :: (natDec b ++ ['m']))) =
        scanUnit minAlts (' ' :: (natDec b ++ ['m'])) :=
      scanUnit_digits_skip minAlts (natDec a) 'h' (' ' :: (natDec b ++ ['m']))
        (natDec_isDigit a) (by decide) (by decide) (by decide)
        (matchAlts_min_head 'h' _ (by decide))
    have h2 : scanUnit minAlts (' ' :: (natDec b ++ ['m'])) =
        scanUnit minAlts (natDec b ++ ['m']) :=
      scanUnit_cons_notdigit minAlts ' ' _ (by decide)
    have h3 : scanUnit minAlts (natDec b ++ ['m']) = some ⟨b, 0⟩ := by
      have hhit := scanUnit_digits_hit minAlts (natDec b) ['m'] (natDec_ne_nil b)
        (natDec_isDigit b)
        (fun c cs h => by
          injection h with hh1 hh2
          subst hh1
          exact ⟨by decide, by decide⟩)
        (by decide)
      rw [digitsToNat_natDec] at hhit
      exact hhit
    rw [h1, h2, h3]
  rw [hcolon]
  simp only [hhour, hmin, Option.isSome_some, Bool.true_or, if_true, Option.getD_some]
  rw [roundUnits_int]

/-- Unfolding `formatMinutes` at a natural-number total: the clamp and the
rounding are the identity, and the three rendering branches are selected
by `m / 60` and `m % 60`. -/
theorem formatMinutes_natCast (m : Nat) :
    formatMinutes (m : ℚ) =
      if m / 60 = 0 then String.mk (natDec (m % 60) ++ ['m'])
      else if m % 60 = 0 then String.mk (natDec (m / 60) ++ ['h'])
      else String.mk (natDec (m / 60) ++ 'h' :: ' ' :: (natDec (m % 60) ++ ['m'])) := by
  have hfloor : jsRound (m : ℚ) = m := by
    rw [jsRound]
    have h : ((m : ℚ) + 1 / 2) = (m : ℤ) + (1 / 2 : ℚ) := by push_cast; ring
    rw [h, Int.floor_int_add]
    norm_num
  have hmins : (max 0 (jsRound (m : ℚ))).toNat = m := by rw [hfloor]; omega
  simp only [formatMinutes, hmins]
  by_cases h0 : m / 60 = 0
  · simp [h0]
  · have hle : ¬(m / 60 ≤ 0) := by omega
    simp [h0, hle]

/-- Parsing the formatted rendering of a minute total recovers the total. -/
theorem parse_format (m : Nat) :
    parseDurationToMinutes (formatMinutes (m : ℚ)) = m := by
  rw [formatMinutes_natCast]
  by_cases h0 : m / 60 = 0
  · rw [if_pos h0, parse_m_form]
    omega
  · rw [if_neg h0]
    by_cases h1 : m % 60 = 0
    · rw [if_pos h1, parse_h_form]
      omega
    · rw [if_neg h1, parse_hm_form]
      omega

/-- C9: the formatter and parser are idempotent on canonical forms — for
every non-negative integer total of minutes, formatting, parsing the
rendering back, and formatting again yields the same display string as
the first formatting. -/
theorem format_parse_format_idempotent (m : Nat) :
    formatMinutes ((parseDurationToMinutes (formatMinutes (m : ℚ)) : Nat) : ℚ) =
      formatMinutes (m : ℚ) := by
  rw [parse_format]

end StudyPlanner
